import Mathlib

/-!
# fluffd: device registry and command-dispatch protocol

A shallow embedding of src/fluffd/fluffd.js, the HTTP-to-BLE bridge for
Furby Connect toys.  The embedding models:

* the global mutable map of connected Furbies
  (fluffd.js line 33: a JS object keyed by peripheral uuid),
* the body-end handler of parsePostCommand (lines 71-98),
* the noble stateChange handler (lines 103-109),
* the noble discover handler (lines 111-128), in normal and introspect mode,
* the routing/header-writing behaviour of the HTTP server (lines 36-63).

External collaborators (noble, Node's http and JSON.parse, and the sibling
modules fluffcon/furby/fluffaction, which are not part of the analysed
source tree) appear as environment-supplied event data.  JS property
assignment on an object updates an existing key in place or appends a new
one; a JS object is embedded as an association list with that update rule.
-/

namespace Fluffd

/-- A device identifier: the peripheral's uuid, an opaque string. -/
abbrev DevId := String

/-- A device session handle (the Furby object wrapping a connection);
sessions are abstract, identified by a number. -/
abbrev Session := Nat

/-- The registry of connected Furbies: the JS object
`let furbies = {}` of fluffd.js line 33, as an association list
from uuid to session. -/
abbrev Registry := List (DevId × Session)

/-- JS property assignment `furbies[id] = s`: overwrite in place if the key
is present, otherwise append. -/
def regInsert : Registry → DevId → Session → Registry
  | [], id, s => [(id, s)]
  | (k, v) :: rest, id, s =>
      if k = id then (k, s) :: rest else (k, v) :: regInsert rest id s

/-- JS property read `furbies[id]` (with `id in furbies` as presence). -/
def regGet : Registry → DevId → Option Session
  | [], _ => none
  | (k, v) :: rest, id => if k = id then some v else regGet rest id

/-- The sessions reachable from the registry (its values). -/
def regValues (r : Registry) : List Session := r.map Prod.snd

/-- The structured command body required by parsePostCommand:
an optional `target` (presence tested by the JS `in` operator on
line 75) and optional `params` (`commandData.params` is the JS value
`undefined` when the key is absent, embedded as `none`). -/
structure CommandData where
  target : Option DevId
  params : Option String
deriving DecidableEq, Repr

/-- Outcome of `JSON.parse(commandDataString)` together with the
structural requirement imposed by the handler (line 74-75).  `err e`
covers every throw inside the try block that the catch on line 94
receives: a JSON parse failure, or the TypeError raised by applying the
`in` operator to a non-object parse result.  JSON.parse itself is a
Node builtin, external to this repository. -/
inductive ParseResult where
  | ok (d : CommandData)
  | err (e : String)
deriving DecidableEq, Repr

/-- One execute invocation `furbies[furbyId].do(commandName, params)`:
the session it is invoked on, the command name and the params. -/
abbrev Exec := Session × String × Option String

/-- Observable effects of the body-end handler of parsePostCommand:
the execute invocations performed, and the arguments of every
`res.end` call in the order the calls happen. -/
structure HandlerResult where
  execs : List Exec
  ends : List String
deriving DecidableEq, Repr

/-- The body the HTTP caller receives: a Node response stream is
finished by its first `end` call, so later `end` calls on the same
response cannot change the delivered body. -/
def HandlerResult.response (h : HandlerResult) : String := h.ends.headD ""

/-- The `req.on("end", ...)` callback of parsePostCommand
(fluffd.js lines 71-98), given a registry snapshot, the command name
from the URL and the parse outcome of the accumulated body.  Note that
after the not-found branch ends the response on line 83, control falls
through to `res.end("ok")` on line 93.  `do` on a session is delegated
to the external furby module and is fire-and-forget here. -/
def handleEnd (furbies : Registry) (commandName : String) (pr : ParseResult) :
    HandlerResult :=
  match pr with
  | .err e => { execs := [], ends := ["error: " ++ e] }
  | .ok d =>
    match d.target with
    | some furbyId =>
      match regGet furbies furbyId with
      | some sess =>
          { execs := [(sess, commandName, d.params)], ends := ["ok"] }
      | none =>
          { execs := [], ends := ["error: could not find target", "ok"] }
    | none =>
      { execs := furbies.map (fun p => (p.2, commandName, d.params)),
        ends := ["ok"] }

/-- Run mode, fixed at process start from `process.argv[2]`
(fluffd.js line 116): `node fluffd.js introspect` versus normal server
mode.  `process.argv` never changes while the process runs. -/
inductive Mode where
  | normal
  | introspect
deriving DecidableEq, Repr

/-- A discovered BLE peripheral as the discover handler reads it:
its uuid and its advertised local name. -/
structure Peripheral where
  uuid : DevId
  localName : String
deriving DecidableEq, Repr

/-- The process-level state: the furbies registry, the set of sessions
whose underlying BLE connection is still live (environment truth used to
state the liveness invariant), whether noble is scanning, whether the
process has exited, and the uuids introspected so far. -/
structure SysState where
  furbies : Registry
  live : List Session
  scanning : Bool
  terminated : Bool
  introspected : List DevId
deriving DecidableEq, Repr

/-- State at process start: empty registry, nothing live, not scanning. -/
def initState : SysState :=
  { furbies := [], live := [], scanning := false,
    terminated := false, introspected := [] }

/-- External events driving fluffd: a noble adapter stateChange, a noble
discover (with the environment's verdict on whether fluffcon.connect
succeeds and which session it yields), a transport-level disconnect of a
session, a POST /cmd/[name] body-end, and a GET /scan request. -/
inductive Event where
  | stateChange (s : String)
  | discover (p : Peripheral) (connectOk : Bool) (sess : Session)
  | disconnect (sess : Session)
  | httpCmd (name : String) (pr : ParseResult)
  | httpScan
deriving DecidableEq, Repr

/-- Whether an event is a transport disconnect notification. -/
def Event.isDisconnect : Event → Bool
  | .disconnect _ => true
  | _ => false

/-- Whether an event is a peripheral discovery. -/
def Event.isDiscover : Event → Bool
  | .discover _ _ _ => true
  | _ => false

/-- One event step of fluffd.  stateChange: lines 103-109 (startScanning
iff the state is "poweredOn").  discover: lines 111-128 — filter on the
advertised name "Furby"; in introspect mode call fluffcon.introspect and
return (modelled from the spec: fluffcon.introspect, outside the analysed
tree, enumerates the peripheral's services and terminates the process);
in normal mode, on connect success run the callback, which inserts the
new Furby into the registry.  disconnect: fluffd.js registers no handler
for it and the registry is private to fluffd.js, so it only ends the
session's underlying connection, leaving the registry untouched.
httpCmd: parsePostCommand reads the registry and never mutates it.
httpScan: line 55 calls noble.startScanning.  A terminated process
reacts to nothing. -/
def step (mode : Mode) (st : SysState) (e : Event) : SysState :=
  if st.terminated then st else
  match e with
  | .stateChange s => { st with scanning := s = "poweredOn" }
  | .discover p connectOk sess =>
    if p.localName = "Furby" then
      match mode with
      | .introspect =>
          { st with terminated := true,
                    introspected := st.introspected ++ [p.uuid] }
      | .normal =>
          if connectOk then
            { st with furbies := regInsert st.furbies p.uuid sess,
                      live := sess :: st.live }
          else st
    else st
  | .disconnect sess => { st with live := st.live.erase sess }
  | .httpCmd _ _ => st
  | .httpScan => { st with scanning := true }

/-- Run fluffd over a sequence of events. -/
def run (mode : Mode) (st : SysState) (es : List Event) : SysState :=
  es.foldl (step mode) st

/-- The registry liveness invariant: every entry's session refers to a
still-connected peripheral. -/
def entriesLive (st : SysState) : Prop :=
  ∀ p ∈ st.furbies, p.2 ∈ st.live

instance (st : SysState) : Decidable (entriesLive st) := by
  unfold entriesLive; infer_instance

/-- JS `String.prototype.split("/")` on a character list: cut at every
slash; the empty string yields a single empty fragment. -/
def splitSlashAux : List Char → List Char → List String
  | [], acc => [String.mk acc.reverse]
  | c :: cs, acc =>
      if c = '/' then String.mk acc.reverse :: splitSlashAux cs []
      else splitSlashAux cs (c :: acc)

/-- JS `url.split("/")`. -/
def splitSlash (cs : List Char) : List String := splitSlashAux cs []

/-- `req.url.substring(1).split("/")` followed by `splice(0, 2)` and
pushing the re-joined remainder (fluffd.js lines 37-39). -/
def queryOf (url : String) : List String :=
  let fragments := splitSlash (url.data.drop 1)
  fragments.take 2 ++ [String.intercalate "/" (fragments.drop 2)]

/-- The first path segment, `query[0]`, on which the server dispatches. -/
def routeKey (url : String) : String := (queryOf url).headD ""

/-- The open cross-origin allowance header written by writeHead. -/
def corsHeader : String × String := ("Access-Control-Allow-Origin", "*")

/-- The explicit response headers the server writes for a request url
(fluffd.js lines 41-61).  The cmd, list and unknown-path branches call
writeHead with Content-Type and the CORS header; the scan branch
(lines 54-56) calls res.end without any writeHead, so only Node's
implicit defaults are sent and no CORS header is among them. -/
def serveHeaders (url : String) : List (String × String) :=
  if routeKey url = "cmd" then [("Content-Type", "text/plain"), corsHeader]
  else if routeKey url = "list" then [("Content-Type", "text/plain"), corsHeader]
  else if routeKey url = "scan" then []
  else [("Content-Type", "text/plain"), corsHeader]

/-! ## Registry lemmas -/

/-- Membership after a JS property assignment: an entry of the updated
object is the assigned pair or an entry of the original. -/
theorem mem_regInsert {r : Registry} {id : DevId} {s : Session}
    {p : DevId × Session} (h : p ∈ regInsert r id s) :
    p = (id, s) ∨ p ∈ r := by
  induction r with
  | nil => simpa [regInsert] using h
  | cons hd tl ih =>
    obtain ⟨k, v⟩ := hd
    by_cases hk : k = id
    · subst hk
      simp only [regInsert, if_pos rfl] at h
      rcases List.mem_cons.mp h with h1 | h1
      · exact Or.inl h1
      · exact Or.inr (List.mem_cons_of_mem _ h1)
    · simp only [regInsert, if_neg hk] at h
      rcases List.mem_cons.mp h with h1 | h1
      · exact Or.inr (h1 ▸ List.mem_cons_self _ _)
      · rcases ih h1 with h2 | h2
        · exact Or.inl h2
        · exact Or.inr (List.mem_cons_of_mem _ h2)

/-- Reading back the key just assigned yields the assigned session. -/
theorem regGet_regInsert (r : Registry) (id : DevId) (s : Session) :
    regGet (regInsert r id s) id = some s := by
  induction r with
  | nil => simp [regInsert, regGet]
  | cons hd tl ih =>
    obtain ⟨k, v⟩ := hd
    by_cases hk : k = id
    · subst hk; simp [regInsert, regGet]
    · simp [regInsert, regGet, hk, ih]

/-- Assigning the same key twice is the same as assigning it once with
the second value: the first value is dropped. -/
theorem regInsert_regInsert (r : Registry) (id : DevId) (s1 s2 : Session) :
    regInsert (regInsert r id s1) id s2 = regInsert r id s2 := by
  induction r with
  | nil => simp [regInsert]
  | cons hd tl ih =>
    obtain ⟨k, v⟩ := hd
    by_cases hk : k = id
    · subst hk; simp [regInsert]
    · simp [regInsert, hk, ih]

/-- A value reachable after a JS property assignment is the assigned
session or a value of the original object. -/
theorem mem_regValues_regInsert {r : Registry} {id : DevId}
    {s x : Session} (h : x ∈ regValues (regInsert r id s)) :
    x = s ∨ x ∈ regValues r := by
  rcases List.mem_map.mp h with ⟨p, hp, hx⟩
  rcases mem_regInsert hp with h1 | h1
  · left; rw [← hx, h1]
  · right; exact List.mem_map.mpr ⟨p, h1, hx⟩

/-! ## Step lemmas -/

/-- A single non-disconnect step preserves the registry liveness
invariant: stateChange, httpCmd and httpScan touch neither the registry
nor the connections, a discovery in introspect mode only terminates, and
a successful connection inserts a session that is live by construction. -/
theorem step_preserves_entriesLive {mode : Mode} {st : SysState} {e : Event}
    (hlive : entriesLive st) (hnd : e.isDisconnect = false) :
    entriesLive (step mode st e) := by
  unfold step
  by_cases hterm : st.terminated
  · simpa [hterm] using hlive
  · simp only [hterm, if_false]
    cases e with
    | stateChange s =>
      intro p hp
      exact hlive p hp
    | discover p connectOk sess =>
      by_cases hname : p.localName = "Furby"
      · cases mode with
        | introspect =>
          simp only [hname, if_pos]
          intro q hq
          exact hlive q hq
        | normal =>
          by_cases hok : connectOk
          · simp only [hname, if_pos, hok, if_true]
            intro q hq
            rcases mem_regInsert hq with h1 | h1
            · rw [h1]; exact List.mem_cons_self _ _
            · exact List.mem_cons_of_mem _ (hlive q h1)
          · simp only [hname, if_pos, hok]
            simpa using hlive
      · simp only [hname, if_neg, if_false]
        exact hlive
    | disconnect sess => simp [Event.isDisconnect] at hnd
    | httpCmd name pr =>
      intro p hp
      exact hlive p hp
    | httpScan =>
      intro p hp
      exact hlive p hp

/-- Running any disconnect-free event sequence preserves the registry
liveness invariant. -/
theorem run_preserves_entriesLive (mode : Mode) (es : List Event) :
    ∀ st : SysState, entriesLive st →
      (∀ e ∈ es, e.isDisconnect = false) →
      entriesLive (run mode st es) := by
  induction es with
  | nil => intro st h _; simpa [run] using h
  | cons e rest ih =>
    intro st h hnd
    have hstep : entriesLive (step mode st e) :=
      step_preserves_entriesLive h (hnd e (List.mem_cons_self _ _))
    have : run mode st (e :: rest) = run mode (step mode st e) rest := by
      simp [run]
    rw [this]
    exact ih _ hstep (fun x hx => hnd x (List.mem_cons_of_mem _ hx))

/-- Only a discover event can change the registry: every other event
leaves `furbies` exactly as it was. -/
theorem step_furbies_eq_of_not_discover (mode : Mode) (st : SysState)
    (e : Event) (hd : e.isDiscover = false) :
    (step mode st e).furbies = st.furbies := by
  unfold step
  by_cases hterm : st.terminated
  · simp [hterm]
  · cases e with
    | stateChange s => simp [hterm]
    | discover p connectOk sess => simp [Event.isDiscover] at hd
    | disconnect sess => simp [hterm]
    | httpCmd name pr => simp [hterm]
    | httpScan => simp [hterm]

/-! ## Claim theorems -/

/-- C1, counterexample: a Furby connects and its transport then
disconnects; fluffd registers no disconnect handler and nothing else can
reach the module-private furbies object, so the registry keeps a stale
entry whose session is no longer live. -/
theorem disconnect_leaves_stale_registry_entry :
    ¬ entriesLive (run .normal initState
        [.discover ⟨"AA:BB", "Furby"⟩ true 1, .disconnect 1]) ∧
    (run .normal initState
        [.discover ⟨"AA:BB", "Furby"⟩ true 1, .disconnect 1]).furbies
      = [("AA:BB", 1)] := by decide

/-- C1, amended: the discover handler's insert on successful connection
is the only mutation of the registry (no remove path exists at all), and
along any event sequence free of disconnect notifications every registry
entry refers to a live, connected peripheral. -/
theorem registry_insert_only_live_without_disconnects
    (mode : Mode) (es : List Event)
    (hnd : ∀ e ∈ es, e.isDisconnect = false) :
    entriesLive (run mode initState es) ∧
    ∀ (st : SysState) (e : Event), e.isDiscover = false →
      (step mode st e).furbies = st.furbies :=
  ⟨run_preserves_entriesLive mode es initState (by decide) hnd,
   fun st e hd => step_furbies_eq_of_not_discover mode st e hd⟩

/-- C1, witness: the amended theorem applied to the disconnect-free
trace in which one Furby connects. -/
theorem registry_insert_only_live_without_disconnects_witness :
    entriesLive (run .normal initState
      [.discover ⟨"AA:BB", "Furby"⟩ true 1]) :=
  (registry_insert_only_live_without_disconnects .normal
    [.discover ⟨"AA:BB", "Furby"⟩ true 1] (by decide)).1

/-- C2: a parsed command whose target is absent from the registry
performs zero execute invocations (hence no broadcast fallback), the
HTTP caller receives "error: could not find target", and that failure
response is produced exactly once. -/
theorem targeted_missing_no_execute
    (furbies : Registry) (name t : String) (params : Option String)
    (h : regGet furbies t = none) :
    (handleEnd furbies name (.ok ⟨some t, params⟩)).execs = [] ∧
    (handleEnd furbies name (.ok ⟨some t, params⟩)).response
      = "error: could not find target" ∧
    (handleEnd furbies name (.ok ⟨some t, params⟩)).ends.count
      "error: could not find target" = 1 := by
  refine ⟨?_, ?_, ?_⟩ <;>
    simp [handleEnd, h, HandlerResult.response, List.count_cons]

/-- C2, witness: scenario C — registry holding AA:BB, command feed
targeted at the absent ZZ:ZZ. -/
theorem targeted_missing_no_execute_witness :
    (handleEnd [("AA:BB", 1)] "feed" (.ok ⟨some "ZZ:ZZ", none⟩)).execs
      = [] ∧
    (handleEnd [("AA:BB", 1)] "feed" (.ok ⟨some "ZZ:ZZ", none⟩)).response
      = "error: could not find target" ∧
    (handleEnd [("AA:BB", 1)] "feed" (.ok ⟨some "ZZ:ZZ", none⟩)).ends.count
      "error: could not find target" = 1 :=
  targeted_missing_no_execute [("AA:BB", 1)] "feed" "ZZ:ZZ" none (by decide)

/-- C3: a command without a target executes exactly once per registry
entry of the snapshot passed to the handler, in order, and answers "ok";
on an empty registry no execution happens at all. -/
theorem broadcast_once_per_entry
    (furbies : Registry) (name : String) (params : Option String) :
    (handleEnd furbies name (.ok ⟨none, params⟩)).execs
      = furbies.map (fun p => (p.2, name, params)) ∧
    (handleEnd furbies name (.ok ⟨none, params⟩)).response = "ok" ∧
    (handleEnd [] name (.ok ⟨none, params⟩)).execs = [] := by
  refine ⟨?_, ?_, ?_⟩ <;> simp [handleEnd, HandlerResult.response]

/-- C4: a command whose target is in the registry executes on exactly
that entry's session with the request's params (none when the body has
no params key), and answers "ok". -/
theorem targeted_found_executes_only_target
    (furbies : Registry) (name t : String) (params : Option String)
    (sess : Session) (h : regGet furbies t = some sess) :
    (handleEnd furbies name (.ok ⟨some t, params⟩)).execs
      = [(sess, name, params)] ∧
    (handleEnd furbies name (.ok ⟨some t, params⟩)).response = "ok" := by
  refine ⟨?_, ?_⟩ <;> simp [handleEnd, h, HandlerResult.response]

/-- C4, witness: scenario B — registry holding AA:BB and CC:DD, command
feed targeted at AA:BB with no params. -/
theorem targeted_found_executes_only_target_witness :
    (handleEnd [("AA:BB", 1), ("CC:DD", 2)] "feed"
        (.ok ⟨some "AA:BB", none⟩)).execs = [(1, "feed", none)] ∧
    (handleEnd [("AA:BB", 1), ("CC:DD", 2)] "feed"
        (.ok ⟨some "AA:BB", none⟩)).response = "ok" :=
  targeted_found_executes_only_target [("AA:BB", 1), ("CC:DD", 2)]
    "feed" "AA:BB" none 1 (by decide)

/-- C5: a body that does not parse as the required structured object
yields zero execute invocations, a response beginning with "error: ",
and a /cmd request never changes the registry. -/
theorem malformed_body_error_no_dispatch
    (furbies : Registry) (name e : String) :
    (handleEnd furbies name (.err e)).execs = [] ∧
    (∃ rest, (handleEnd furbies name (.err e)).response
      = "error: " ++ rest) ∧
    ∀ (mode : Mode) (st : SysState) (pr : ParseResult),
      (step mode st (.httpCmd name pr)).furbies = st.furbies := by
  refine ⟨by simp [handleEnd],
    ⟨e, by simp [handleEnd, HandlerResult.response]⟩, ?_⟩
  intro mode st pr
  exact step_furbies_eq_of_not_discover mode st _ (by simp [Event.isDiscover])

/-- C6: JS property assignment gives the registry last-write-wins
overwrite semantics; after two inserts under the same id the lookup
returns the second session and the first is no longer a value of the
registry. -/
theorem insert_overwrite_lastwrite
    (r : Registry) (id : DevId) (s1 s2 : Session)
    (hne : s1 ≠ s2) (hfresh : s1 ∉ regValues r) :
    regGet (regInsert (regInsert r id s1) id s2) id = some s2 ∧
    s1 ∉ regValues (regInsert (regInsert r id s1) id s2) := by
  constructor
  · rw [regInsert_regInsert]
    exact regGet_regInsert r id s2
  · rw [regInsert_regInsert]
    intro hmem
    rcases mem_regValues_regInsert hmem with h1 | h1
    · exact hne h1
    · exact hfresh h1

/-- C6, witness: reconnect of AA:BB replacing session 1 by session 2 in
an initially empty registry. -/
theorem insert_overwrite_lastwrite_witness :
    regGet (regInsert (regInsert [] "AA:BB" 1) "AA:BB" 2) "AA:BB"
      = some 2 ∧
    1 ∉ regValues (regInsert (regInsert [] "AA:BB" 1) "AA:BB" 2) :=
  insert_overwrite_lastwrite [] "AA:BB" 1 2 (by decide) (by decide)

/-- C7: in introspect mode (selected once from process.argv at start and
fixed for the whole run) a matching discovery records the peripheral's
services and terminates the process; introspect mode never touches the
registry, and a terminated process reacts to no further event. -/
theorem introspect_terminates_no_connect
    (st : SysState) (p : Peripheral) (connectOk : Bool) (sess : Session)
    (hterm : st.terminated = false) (hname : p.localName = "Furby") :
    (step .introspect st (.discover p connectOk sess)).terminated = true ∧
    (step .introspect st (.discover p connectOk sess)).introspected
      = st.introspected ++ [p.uuid] ∧
    (∀ (st2 : SysState) (e : Event),
      (step .introspect st2 e).furbies = st2.furbies) ∧
    (∀ (st3 : SysState) (e : Event), st3.terminated = true →
      step .introspect st3 e = st3) := by
  refine ⟨by simp [step, hterm, hname], by simp [step, hterm, hname],
    ?_, ?_⟩
  · intro st2 e
    unfold step
    by_cases h2 : st2.terminated
    · simp [h2]
    · cases e with
      | stateChange s => simp [h2]
      | discover q ok2 s2 =>
        by_cases hq : q.localName = "Furby" <;> simp [h2, hq]
      | disconnect s => simp [h2]
      | httpCmd n pr => simp [h2]
      | httpScan => simp [h2]
  · intro st3 e h3
    simp [step, h3]

/-- C7, witness: the first matching discovery at process start in
introspect mode terminates the run. -/
theorem introspect_terminates_no_connect_witness :
    (step .introspect initState
      (.discover ⟨"AA:BB", "Furby"⟩ true 1)).terminated = true :=
  (introspect_terminates_no_connect initState ⟨"AA:BB", "Furby"⟩ true 1
    (by decide) (by decide)).1

/-- C8: a stateChange notification makes the controller scan exactly
when the new state is poweredOn, touches neither registry nor sessions,
and the resulting scanning flag depends only on the notified state, not
on any previously held adapter state. -/
theorem stateChange_sets_scanning
    (mode : Mode) (st : SysState) (s : String)
    (hterm : st.terminated = false) :
    ((step mode st (.stateChange s)).scanning = true ↔ s = "poweredOn") ∧
    (step mode st (.stateChange s)).furbies = st.furbies ∧
    (step mode st (.stateChange s)).live = st.live ∧
    ∀ st2 : SysState, st2.terminated = false →
      (step mode st2 (.stateChange s)).scanning
        = (step mode st (.stateChange s)).scanning := by
  refine ⟨by simp [step, hterm], by simp [step, hterm],
    by simp [step, hterm], ?_⟩
  intro st2 h2
  simp [step, hterm, h2]

/-- C8, witness: poweredOn starts scanning from the initial state. -/
theorem stateChange_sets_scanning_witness :
    (step .normal initState (.stateChange "poweredOn")).scanning = true :=
  (stateChange_sets_scanning .normal initState "poweredOn"
    (by decide)).1.mpr rfl

/-- C9, counterexample: the scan route ends its response without calling
writeHead, so its response carries no Access-Control-Allow-Origin
header. -/
theorem scan_route_response_lacks_cors :
    corsHeader ∉ serveHeaders "/scan" := by decide

/-- C9, amended: every route except /scan — the cmd, list and
unknown-path branches — writes the open cross-origin allowance header
on its response. -/
theorem non_scan_routes_include_cors (url : String)
    (h : routeKey url ≠ "scan") :
    corsHeader ∈ serveHeaders url := by
  unfold serveHeaders
  by_cases h1 : routeKey url = "cmd"
  · simp [h1]
  · by_cases h2 : routeKey url = "list"
    · simp [h1, h2]
    · simp [h1, h2, h]

/-- C9, witness: the list route's response carries the header. -/
theorem non_scan_routes_include_cors_witness :
    corsHeader ∈ serveHeaders "/list" :=
  non_scan_routes_include_cors "/list" (by decide)

/-- C10: on a parsed command whose target is absent from the registry
the handler does not stop after ending the response with the error
text; control falls through to a second res.end("ok") on the same,
already ended response. -/
theorem missing_target_double_end
    (furbies : Registry) (name t : String) (params : Option String)
    (h : regGet furbies t = none) :
    (handleEnd furbies name (.ok ⟨some t, params⟩)).ends
      = ["error: could not find target", "ok"] := by
  simp [handleEnd, h]

/-- C10, witness: registry holding AA:BB, command wiggle targeted at the
absent CC:DD. -/
theorem missing_target_double_end_witness :
    (handleEnd [("AA:BB", 1)] "wiggle" (.ok ⟨some "CC:DD", none⟩)).ends
      = ["error: could not find target", "ok"] :=
  missing_target_double_end [("AA:BB", 1)] "wiggle" "CC:DD" none (by decide)

end Fluffd
